import Mathlib

/-!
Shallow embedding of the tritium measurement-reduction pipeline
(`analysis/tritium/tritium_model.py`).

Physical magnitudes are modelled as rationals (`ℚ`); every quantity carries
its magnitude in the unit the script uses at that point (Bq for activities,
seconds for times).  Fallible operations (Python exceptions) are modelled
with `Except String`.  Helpers that live in the external `libra_toolbox`
library or in scipy are not part of the repository source; each such
definition carries a doc comment starting with `Modelled from the spec:`.
-/

namespace TritiumModel

/-- One row of a loaded counting table: the label (the `SMPL_ID` column
value), the quench-sensitivity reading `tSIE`, and the measured activity in
Bq.  The script only ever reads these three columns of the pandas frame. -/
structure Row where
  label : String
  tSIE : ℚ
  activity : ℚ
deriving DecidableEq

/-- State of an `LSCFileReader`: the filename, the optional labels column,
the optional loaded data (`None` before `read_file`) and the quench-set
identifier reported by the file (set by `read_file`). -/
structure LSCFileReader where
  filename : String
  labels_column : Option String
  data : Option (List Row)
  quench_set : Option String
deriving DecidableEq

/-- An `LSCSample`: a name, an activity magnitude in Bq, and the
`background_substracted` flag. -/
structure LSCSample where
  name : String
  activity : ℚ
  background_substracted : Bool
deriving DecidableEq

/-- The filesystem seen by the script: for each filename, the rows of the
counting table and the quench-set identifier of the file. -/
def FileSystem : Type := String → List Row × String

/-- Modelled from the spec: the external raw-file parser.  `read_file` loads
the table rows into `data` and records the per-file quench-set identifier
(the spec lists the raw-file parsing as an external collaborator exposing
rows addressable by a label column plus a quench-set identifier). -/
def read_file (fs : FileSystem) (r : LSCFileReader) : LSCFileReader :=
  { r with data := some (fs r.filename).1, quench_set := some (fs r.filename).2 }

/-- Construction of a fresh reader as done by the script
(`LSCFileReader(filename, labels_column="SMPL_ID")`). -/
def LSCFileReader.new (filename : String) : LSCFileReader :=
  { filename := filename, labels_column := some "SMPL_ID", data := none, quench_set := none }

/-- Embeds `get_row_by_label` (tritium_model.py lines 77-85): error if data
not loaded, error if the labels column is unset, filter the rows on the
label column and return the first matching row (`row.iloc[0]`), error if no
row matches. -/
def get_row_by_label (reader : LSCFileReader) (label : String) : Except String Row :=
  match reader.data with
  | none => Except.error "Data not loaded. Call reader.read_file() first."
  | some rows =>
      match reader.labels_column with
      | none => Except.error "labels_column is not set in reader."
      | some _ =>
          match rows.filter (fun r => r.label == label) with
          | [] => Except.error ("Label " ++ label ++ " not found in data.")
          | r :: _ => Except.ok r

/-- Embeds `substract_scalar_background` (tritium_model.py lines 88-97).
Returns the corrected sample together with a flag recording whether the
negative-activity warning was emitted; raises (models `ValueError`) when the
background has already been subtracted. -/
def substract_scalar_background (sample : LSCSample) (background_bq : ℚ) :
    Except String (LSCSample × Bool) :=
  if sample.background_substracted then
    Except.error "Background already substracted"
  else
    let a := sample.activity - background_bq
    if a < 0 then
      Except.ok ({ sample with activity := 0, background_substracted := true }, true)
    else
      Except.ok ({ sample with activity := a, background_substracted := true }, false)

/-- Modelled from the spec: `LSCSample.from_file` of the external
`libra_toolbox` looks up the row for the label in the loaded table and
builds a sample carrying that row's measured activity, with the background
not yet subtracted; it raises `ValueError` when the label is absent (the
spec: looks up the row for the label, fails with LabelNotFound if absent). -/
def LSCSample.from_file (reader : LSCFileReader) (label : String) : Except String LSCSample :=
  match get_row_by_label reader label with
  | Except.error e => Except.error e
  | Except.ok r =>
      Except.ok { name := label, activity := r.activity, background_substracted := false }

/-- Modelled from the spec: `LSCSample.substract_background` of the external
`libra_toolbox` subtracts the background sample's activity with the same
clamping, warning and double-subtraction behaviour as the scalar variant
(the spec gives one common postcondition for background correction). -/
def substract_background (sample background_sample : LSCSample) :
    Except String (LSCSample × Bool) :=
  substract_scalar_background sample background_sample.activity

/-- The fixed priority list of calibration-vial labels tried by the scalar
background search (tritium_model.py line 55). -/
def background_labels : List String := ["1L-BL-1", "1L-BL-2", "1L-BL-3", "1L-BL-4"]

/-- Embeds the try/except search loop of `create_sample` (lines 58-63):
try each candidate label in order, keep the first one whose lookup
succeeds, `none` when every lookup raises. -/
def find_background_sample (reader : LSCFileReader) : List String → Option LSCSample
  | [] => none
  | l :: ls =>
      match LSCSample.from_file reader l with
      | Except.ok s => some s
      | Except.error _ => find_background_sample reader ls

/-- The run-scoped mutable state of the script: the list `all_file_readers`
(line 17) and the list `all_quench` (line 18). -/
structure RunState where
  all_file_readers : List LSCFileReader
  all_quench : List (Option String)
deriving DecidableEq

/-- Embeds lines 32-43 of `create_sample`: scan `all_file_readers` for a
reader with this filename, construct a fresh one when the scan fails, and
then call `read_file` unconditionally.  Note the loop in the source never
appends the fresh reader to `all_file_readers`. -/
def resolve_reader (fs : FileSystem) (st : RunState) (filename : String) : LSCFileReader :=
  let file_reader :=
    match st.all_file_readers.find? (fun r => r.filename == filename) with
    | some r => r
    | none => LSCFileReader.new filename
  read_file fs file_reader

/-- Embeds `create_sample` (tritium_model.py lines 21-74).  The returned
state reflects exactly the mutations the source performs: the quench set is
appended on success only (a raised exception propagates before line 72) and
`all_file_readers` is never extended. -/
def create_sample (fs : FileSystem) (st : RunState) (label filename : String)
    (background_curve : Option (ℚ → ℚ)) : Except String LSCSample × RunState :=
  let file_reader := resolve_reader fs st filename
  match LSCSample.from_file file_reader label with
  | Except.error e => (Except.error e, st)
  | Except.ok sample =>
      match background_curve with
      | some curve =>
          match get_row_by_label file_reader label with
          | Except.error e => (Except.error e, st)
          | Except.ok sample_data =>
              let background_bq := curve sample_data.tSIE
              match substract_scalar_background sample background_bq with
              | Except.error e => (Except.error e, st)
              | Except.ok (sample2, _) =>
                  (Except.ok sample2,
                    { st with all_quench := st.all_quench ++ [file_reader.quench_set] })
      | none =>
          match find_background_sample file_reader background_labels with
          | none => (Except.error ("Background sample not found in " ++ filename), st)
          | some background_sample =>
              match substract_background sample background_sample with
              | Except.error e => (Except.error e, st)
              | Except.ok (sample2, _) =>
                  (Except.ok sample2,
                    { st with all_quench := st.all_quench ++ [file_reader.quench_set] })

/-- Helper: the full behaviour of `substract_scalar_background` on a sample
whose flag is still false. -/
theorem substract_scalar_background_ok (s : LSCSample) (bg : ℚ)
    (h : s.background_substracted = false) :
    ∃ s2 warned, substract_scalar_background s bg = Except.ok (s2, warned) ∧
      0 ≤ s2.activity ∧
      s2.background_substracted = true ∧
      (s.activity - bg < 0 → s2.activity = 0 ∧ warned = true) ∧
      (0 ≤ s.activity - bg → s2.activity = s.activity - bg ∧ warned = false) := by
  unfold substract_scalar_background
  rw [h]
  simp only [Bool.false_eq_true, if_false]
  by_cases hneg : s.activity - bg < 0
  · refine ⟨{ s with activity := 0, background_substracted := true }, true, ?_⟩
    rw [if_pos hneg]
    refine ⟨rfl, le_refl 0, rfl, fun _ => ⟨rfl, rfl⟩, fun hge => absurd hneg (not_lt.mpr hge)⟩
  · refine ⟨{ s with activity := s.activity - bg, background_substracted := true }, false, ?_⟩
    rw [if_neg hneg]
    exact ⟨rfl, not_lt.mp hneg, rfl, fun hlt => absurd hlt hneg, fun _ => ⟨rfl, rfl⟩⟩

/-- C6: for every Sample and every background value, background subtraction
on a not-yet-corrected sample succeeds, its resulting activity is
non-negative, the sample is marked background-subtracted, a negative raw
difference is clamped to exactly zero with the warning emitted, and a
non-negative difference is kept verbatim with no warning. -/
theorem C6_clamped_nonneg (s : LSCSample) (bg : ℚ)
    (h : s.background_substracted = false) :
    ∃ s2 warned, substract_scalar_background s bg = Except.ok (s2, warned) ∧
      0 ≤ s2.activity ∧
      s2.background_substracted = true ∧
      (s.activity - bg < 0 → s2.activity = 0 ∧ warned = true) ∧
      (0 ≤ s.activity - bg → s2.activity = s.activity - bg ∧ warned = false) :=
  substract_scalar_background_ok s bg h

/-- Witness for C6 at a concrete input: raw activity 3 Bq, background 5 Bq,
so the corrected activity would be negative and is clamped to zero. -/
theorem C6_clamped_nonneg_witness :
    (LSCSample.mk "vial" 3 false).background_substracted = false ∧
      ∃ s2 warned,
        substract_scalar_background (LSCSample.mk "vial" 3 false) 5 =
            Except.ok (s2, warned) ∧
          0 ≤ s2.activity ∧
          s2.background_substracted = true ∧
          ((LSCSample.mk "vial" 3 false).activity - 5 < 0 →
            s2.activity = 0 ∧ warned = true) ∧
          (0 ≤ (LSCSample.mk "vial" 3 false).activity - 5 →
            s2.activity = (LSCSample.mk "vial" 3 false).activity - 5 ∧ warned = false) :=
  ⟨rfl, C6_clamped_nonneg (LSCSample.mk "vial" 3 false) 5 rfl⟩

/-- C7: background subtraction on a sample whose flag is already set raises
the double-subtraction error, while a single application to a
not-yet-corrected sample succeeds and sets the flag to true. -/
theorem C7_double_subtraction :
    (∀ (s : LSCSample) (bg : ℚ), s.background_substracted = true →
        substract_scalar_background s bg = Except.error "Background already substracted") ∧
      ∀ (s : LSCSample) (bg : ℚ), s.background_substracted = false →
        ∃ s2 warned, substract_scalar_background s bg = Except.ok (s2, warned) ∧
          s2.background_substracted = true := by
  constructor
  · intro s bg h
    unfold substract_scalar_background
    rw [h]
    simp only [if_true]
  · intro s bg h
    obtain ⟨s2, warned, heq, _, hflag, _, _⟩ := substract_scalar_background_ok s bg h
    exact ⟨s2, warned, heq, hflag⟩

/-- Witness for C7 at concrete inputs: a sample with the flag already set
errors, and the same sample with the flag cleared is corrected once with
its flag ending true. -/
theorem C7_double_subtraction_witness :
    (substract_scalar_background (LSCSample.mk "vial" 3 true) 1 =
        Except.error "Background already substracted") ∧
      ∃ s2 warned,
        substract_scalar_background (LSCSample.mk "vial" 3 false) 1 =
            Except.ok (s2, warned) ∧
          s2.background_substracted = true :=
  ⟨C7_double_subtraction.1 (LSCSample.mk "vial" 3 true) 1 rfl,
    C7_double_subtraction.2 (LSCSample.mk "vial" 3 false) 1 rfl⟩

/-- Boolean success test for `LSCSample.from_file`, used to phrase the
priority search over candidate background labels. -/
def from_file_ok (reader : LSCFileReader) (label : String) : Bool :=
  match LSCSample.from_file reader label with
  | Except.ok _ => true
  | Except.error _ => false

/-- Helper: when the first label whose lookup succeeds is `l`, the search
loop returns exactly the sample loaded for `l`. -/
theorem find_background_sample_of_find? (ls : List String) (reader : LSCFileReader)
    (l : String) (h : ls.find? (from_file_ok reader) = some l) :
    ∃ s, LSCSample.from_file reader l = Except.ok s ∧
      find_background_sample reader ls = some s := by
  induction ls with
  | nil => simp at h
  | cons lb rest ih =>
      by_cases hok : from_file_ok reader lb = true
      · rw [List.find?_cons_of_pos _ hok] at h
        obtain rfl : lb = l := by injection h
        unfold from_file_ok at hok
        cases hff : LSCSample.from_file reader lb with
        | error e => rw [hff] at hok; simp at hok
        | ok s =>
            refine ⟨s, rfl, ?_⟩
            unfold find_background_sample
            rw [hff]
      · rw [List.find?_cons_of_neg _ hok] at h
        obtain ⟨s, hs, hfind⟩ := ih h
        refine ⟨s, hs, ?_⟩
        unfold from_file_ok at hok
        cases hff : LSCSample.from_file reader lb with
        | error e =>
            unfold find_background_sample
            rw [hff]
            exact hfind
        | ok s2 => rw [hff] at hok; simp at hok

/-- Helper: when every candidate label fails to load, the search loop
returns `none`. -/
theorem find_background_sample_none (ls : List String) (reader : LSCFileReader)
    (h : ∀ lb ∈ ls, from_file_ok reader lb = false) :
    find_background_sample reader ls = none := by
  induction ls with
  | nil => rfl
  | cons lb rest ih =>
      have hlb := h lb (List.mem_cons_self lb rest)
      unfold from_file_ok at hlb
      cases hff : LSCSample.from_file reader lb with
      | error e =>
          unfold find_background_sample
          rw [hff]
          exact ih fun x hx => h x (List.mem_cons_of_mem lb hx)
      | ok s => rw [hff] at hlb; simp at hlb

/-- C5: the calibration-vial labels are tried in the fixed priority order
1L-BL-1, 1L-BL-2, 1L-BL-3, 1L-BL-4; the search returns the sample of the
first label that loads; when every candidate fails the search is empty and
`create_sample` (scalar strategy) fails with the missing-calibration error
naming the file. -/
theorem C5_background_priority_search :
    (∀ (reader : LSCFileReader) (l : String),
        background_labels.find? (from_file_ok reader) = some l →
        ∃ s, LSCSample.from_file reader l = Except.ok s ∧
          find_background_sample reader background_labels = some s) ∧
      (∀ reader : LSCFileReader,
        (∀ lb ∈ background_labels, from_file_ok reader lb = false) →
        find_background_sample reader background_labels = none) ∧
      ∀ (fs : FileSystem) (st : RunState) (label filename : String) (s : LSCSample),
        LSCSample.from_file (resolve_reader fs st filename) label = Except.ok s →
        find_background_sample (resolve_reader fs st filename) background_labels = none →
        create_sample fs st label filename none =
          (Except.error ("Background sample not found in " ++ filename), st) := by
  refine ⟨fun reader l h => find_background_sample_of_find? background_labels reader l h,
    fun reader h => find_background_sample_none background_labels reader h,
    fun fs st label filename s hff hnone => ?_⟩
  unfold create_sample
  dsimp only
  rw [hff, hnone]

/-- Demo file whose table holds a regular sample row and the second-priority
calibration vial 1L-BL-2 but not 1L-BL-1. -/
def fs_bl2 : FileSystem := fun _ => ([Row.mk "S1" 100 5, Row.mk "1L-BL-2" 90 1], "Q1")

/-- Demo file whose table holds a regular sample row and no calibration
vial at all. -/
def fs_noblank : FileSystem := fun _ => ([Row.mk "S1" 100 5], "Q1")

/-- Witness for C5: on a concrete table missing 1L-BL-1 but holding
1L-BL-2, the search stops at 1L-BL-2; on a table with no calibration vial,
`create_sample` fails naming the file. -/
theorem C5_background_priority_search_witness :
    (∃ s, LSCSample.from_file (resolve_reader fs_bl2 (RunState.mk [] []) "f.csv")
          "1L-BL-2" = Except.ok s ∧
        find_background_sample (resolve_reader fs_bl2 (RunState.mk [] []) "f.csv")
          background_labels = some s) ∧
      create_sample fs_noblank (RunState.mk [] []) "S1" "f.csv" none =
        (Except.error ("Background sample not found in " ++ "f.csv"), RunState.mk [] []) :=
  ⟨C5_background_priority_search.1 (resolve_reader fs_bl2 (RunState.mk [] []) "f.csv")
      "1L-BL-2" (by decide),
    C5_background_priority_search.2.2 fs_noblank (RunState.mk [] []) "S1" "f.csv"
      (LSCSample.mk "S1" 5 false) rfl rfl⟩

/-- C10: on a loaded table with the labels column set, when two or more
rows carry the requested label the lookup returns the first such row in
table order without raising; and the lookup succeeds exactly when the data
is loaded, the labels column is set and some row matches, so it raises only
in the three complementary situations. -/
theorem C10_get_row_first_match :
    (∀ (reader : LSCFileReader) (label c : String) (rows : List Row) (r : Row)
        (rest : List Row),
        reader.data = some rows → reader.labels_column = some c →
        rows.filter (fun x => x.label == label) = r :: rest → rest ≠ [] →
        get_row_by_label reader label = Except.ok r) ∧
      ∀ (reader : LSCFileReader) (label : String),
        (∃ row, get_row_by_label reader label = Except.ok row) ↔
          ∃ rows c, reader.data = some rows ∧ reader.labels_column = some c ∧
            rows.filter (fun x => x.label == label) ≠ [] := by
  constructor
  · intro reader label c rows r rest hdata hcol hfilter _
    unfold get_row_by_label
    rw [hdata, hcol]
    dsimp only
    rw [hfilter]
  · intro reader label
    unfold get_row_by_label
    cases hdata : reader.data with
    | none => simp
    | some rows =>
        dsimp only
        cases hcol : reader.labels_column with
        | none => simp
        | some c =>
            dsimp only
            cases hfilter : List.filter (fun x => x.label == label) rows with
            | nil =>
                constructor
                · rintro ⟨row, hrow⟩
                  exact Except.noConfusion hrow
                · rintro ⟨rows2, c2, hr2, hc2, hne⟩
                  obtain rfl : rows = rows2 := by injection hr2
                  exact (hne hfilter).elim
            | cons r rest =>
                constructor
                · intro _
                  refine ⟨rows, c, rfl, rfl, ?_⟩
                  rw [hfilter]
                  simp
                · intro _
                  exact ⟨r, rfl⟩

/-- A concrete reader whose table has two rows with the same label. -/
def reader_dup : LSCFileReader :=
  { filename := "f.csv", labels_column := some "SMPL_ID",
    data := some [Row.mk "L" 1 10, Row.mk "L" 2 20], quench_set := some "Q" }

/-- Witness for C10: on a table with two rows labelled L the lookup returns
the first of them. -/
theorem C10_get_row_first_match_witness :
    reader_dup.data = some [Row.mk "L" 1 10, Row.mk "L" 2 20] ∧
      reader_dup.labels_column = some "SMPL_ID" ∧
      ([Row.mk "L" 1 10, Row.mk "L" 2 20].filter (fun x => x.label == "L") =
        [Row.mk "L" 1 10, Row.mk "L" 2 20]) ∧
      get_row_by_label reader_dup "L" = Except.ok (Row.mk "L" 1 10) :=
  ⟨rfl, rfl, by decide,
    C10_get_row_first_match.1 reader_dup "L" "SMPL_ID"
      [Row.mk "L" 1 10, Row.mk "L" 2 20] (Row.mk "L" 1 10) [Row.mk "L" 2 20]
      rfl rfl (by decide) (by simp)⟩

/-- Helper: no branch of `create_sample` ever modifies `all_file_readers`;
the source never appends the freshly constructed reader to the cache list,
even though the comment above line 41 announces it. -/
theorem create_sample_preserves_readers (fs : FileSystem) (st : RunState)
    (label filename : String) (bc : Option (ℚ → ℚ)) :
    ((create_sample fs st label filename bc).2).all_file_readers = st.all_file_readers := by
  unfold create_sample
  dsimp only
  repeat' split
  all_goals rfl

/-- Helper: the value and final state of a successful scalar-strategy call
to `create_sample`, assembled from the outcomes of its three steps. -/
theorem create_sample_scalar_ok (fs : FileSystem) (st : RunState)
    (label filename : String) (s bgs s2 : LSCSample) (w : Bool)
    (h1 : LSCSample.from_file (resolve_reader fs st filename) label = Except.ok s)
    (h2 : find_background_sample (resolve_reader fs st filename) background_labels = some bgs)
    (h3 : substract_background s bgs = Except.ok (s2, w)) :
    create_sample fs st label filename none =
      (Except.ok s2,
        { st with all_quench :=
            st.all_quench ++ [(resolve_reader fs st filename).quench_set] }) := by
  unfold create_sample
  dsimp only
  rw [h1]
  dsimp only
  rw [h2]
  dsimp only
  rw [h3]

/-- Demo file for the caching claim: a table holding one sample row and the
first-priority calibration vial. -/
def fs_demo : FileSystem := fun _ => ([Row.mk "S1" 100 5, Row.mk "1L-BL-1" 90 1], "Q1")

/-- C2: claimed per-file memoization does not happen.  The cache list is
left untouched by every call (first conjunct, fully general); concretely, a
successful call that records its quench set still leaves the cache empty,
so a second call with the same path resolves a freshly constructed reader
and re-reads the file instead of reusing the first call's table. -/
theorem C2_cache_never_populated :
    (∀ (fs : FileSystem) (st : RunState) (label filename : String)
        (bc : Option (ℚ → ℚ)),
        ((create_sample fs st label filename bc).2).all_file_readers =
          st.all_file_readers) ∧
      (∃ s, (create_sample fs_demo (RunState.mk [] []) "S1" "f.csv" none).1 =
        Except.ok s) ∧
      ((create_sample fs_demo (RunState.mk [] []) "S1" "f.csv" none).2).all_quench =
        [some "Q1"] ∧
      ((create_sample fs_demo (RunState.mk [] []) "S1" "f.csv" none).2).all_file_readers =
        [] ∧
      resolve_reader fs_demo
          ((create_sample fs_demo (RunState.mk [] []) "S1" "f.csv" none).2) "f.csv" =
        read_file fs_demo (LSCFileReader.new "f.csv") := by
  have h1 : LSCSample.from_file
      (resolve_reader fs_demo (RunState.mk [] []) "f.csv") "S1" =
      Except.ok (LSCSample.mk "S1" 5 false) := by
    simp [LSCSample.from_file, get_row_by_label, resolve_reader, read_file,
      LSCFileReader.new, fs_demo, List.filter_cons]
  have h2 : find_background_sample
      (resolve_reader fs_demo (RunState.mk [] []) "f.csv") background_labels =
      some (LSCSample.mk "1L-BL-1" 1 false) := by
    simp [find_background_sample, background_labels, LSCSample.from_file,
      get_row_by_label, resolve_reader, read_file, LSCFileReader.new, fs_demo,
      List.filter_cons]
  have h3 : substract_background (LSCSample.mk "S1" 5 false)
      (LSCSample.mk "1L-BL-1" 1 false) =
      Except.ok (LSCSample.mk "S1" 4 true, false) := by
    simp [substract_background, substract_scalar_background]
    norm_num
  have hcs := create_sample_scalar_ok fs_demo (RunState.mk [] []) "S1" "f.csv"
    (LSCSample.mk "S1" 5 false) (LSCSample.mk "1L-BL-1" 1 false)
    (LSCSample.mk "S1" 4 true) false h1 h2 h3
  refine ⟨create_sample_preserves_readers, ⟨LSCSample.mk "S1" 4 true, ?_⟩, ?_, ?_, ?_⟩
  · rw [hcs]
  · rw [hcs]
    simp [resolve_reader, read_file, LSCFileReader.new, fs_demo]
  · rw [hcs]
  · rw [hcs]
    simp [resolve_reader, read_file, LSCFileReader.new, fs_demo]

/-- Modelled from the spec: a CompositeSample (`LIBRASample` in the external
library): one or more constituent vials of one physical draw plus an
absolute timestamp, here in seconds. -/
structure LIBRASample where
  samples : List LSCSample
  time : ℚ
deriving DecidableEq

/-- Modelled from the spec: a GasStream holds the ordered CompositeSamples
of one sampling line together with the canonical start time (seconds). -/
structure GasStream where
  samples : List LIBRASample
  start_time : ℚ
deriving DecidableEq

/-- Modelled from the spec: the run bundles all gas streams with the
canonical start time. -/
structure LIBRARun where
  streams : List GasStream
  start_time : ℚ
deriving DecidableEq

/-- Error taxonomy of the run-level validation (spec section 7); the script
realises both as assertion failures (tritium_model.py lines 173 and
176-181). -/
inductive RunError
  | quenchSetMismatch
  | backgroundNotSubstracted
deriving DecidableEq

/-- Embeds the script-level validation (lines 172-181): first assert that
`np.unique(all_quench)` has exactly one element, then assert that every
vial of every composite sample of every stream has the background
subtracted. -/
def check_run (all_quench : List (Option String)) (run : LIBRARun) : Except RunError Unit :=
  if (all_quench.dedup).length = 1 then
    if run.streams.all (fun stream =>
        stream.samples.all (fun cs => cs.samples.all (fun v => v.background_substracted))) then
      Except.ok ()
    else Except.error RunError.backgroundNotSubstracted
  else Except.error RunError.quenchSetMismatch

/-- The validated pipeline: output is produced only when both assertions
pass (lines 172-181 sit before any of the processed-data output, lines
288-365). -/
def run_pipeline {α : Type} (all_quench : List (Option String)) (run : LIBRARun)
    (output : α) : Except RunError α :=
  match check_run all_quench run with
  | Except.error e => Except.error e
  | Except.ok _ => Except.ok output

/-- C4: the run validation passes exactly when every vial in every stream
has the background subtracted and the recorded quench-set identifiers have
exactly one distinct value; two distinct recorded quench sets abort the
pipeline with the quench-set-mismatch error before any output is
produced. -/
theorem C4_run_validation :
    (∀ (q : List (Option String)) (run : LIBRARun),
        check_run q run = Except.ok () ↔
          (q.dedup.length = 1 ∧
            ∀ stream ∈ run.streams, ∀ cs ∈ stream.samples, ∀ v ∈ cs.samples,
              v.background_substracted = true)) ∧
      ∀ (q : List (Option String)) (run : LIBRARun) (α : Type) (output : α),
        (∃ a b, a ∈ q ∧ b ∈ q ∧ a ≠ b) →
        run_pipeline q run output = Except.error RunError.quenchSetMismatch := by
  constructor
  · intro q run
    unfold check_run
    split_ifs with hq hall
    · constructor
      · intro _
        refine ⟨hq, ?_⟩
        intro s hs cs hcs v hv
        rw [List.all_eq_true] at hall
        have h1 := hall s hs
        rw [List.all_eq_true] at h1
        have h2 := h1 cs hcs
        rw [List.all_eq_true] at h2
        exact h2 v hv
      · intro _
        rfl
    · constructor
      · intro h
        simp at h
      · rintro ⟨_, hsub⟩
        exfalso
        apply hall
        rw [List.all_eq_true]
        intro s hs
        rw [List.all_eq_true]
        intro cs hcs
        rw [List.all_eq_true]
        intro v hv
        exact hsub s hs cs hcs v hv
    · constructor
      · intro h
        simp at h
      · rintro ⟨hq2, _⟩
        exact hq hq2
  · rintro q run α output ⟨a, b, ha, hb, hne⟩
    have hlen : q.dedup.length ≠ 1 := by
      intro h1
      obtain ⟨x, hx⟩ := List.length_eq_one.mp h1
      have ha2 : a ∈ q.dedup := List.mem_dedup.mpr ha
      have hb2 : b ∈ q.dedup := List.mem_dedup.mpr hb
      rw [hx] at ha2 hb2
      simp only [List.mem_singleton] at ha2 hb2
      exact hne (ha2.trans hb2.symm)
    unfold run_pipeline check_run
    rw [if_neg hlen]

/-- Witness for C4: two distinct recorded quench sets make the pipeline
abort with the mismatch error instead of producing the output value. -/
theorem C4_run_validation_witness :
    run_pipeline [some "Q1", some "Q2"] (LIBRARun.mk [] 0) (0 : ℕ) =
      Except.error RunError.quenchSetMismatch :=
  C4_run_validation.2 [some "Q1", some "Q2"] (LIBRARun.mk [] 0) ℕ 0
    ⟨some "Q1", some "Q2", by simp, by simp, by simp⟩

/-- One irradiation period of a neutron generator, absolute start and stop
times in seconds (the configuration field named `end` is called `stop`
here because `end` is reserved in Lean). -/
structure IrradiationPeriod where
  start : ℚ
  stop : ℚ
deriving DecidableEq

/-- One neutron generator of the configuration: the enabled flag and its
irradiation periods. -/
structure Generator where
  enabled : Bool
  periods : List IrradiationPeriod
deriving DecidableEq

/-- Embeds the irradiation-collection loop (tritium_model.py lines
213-227): skip disabled generators, convert each period to offsets
relative to the canonical start time, in order. -/
def irradiations (start_time : ℚ) : List Generator → List (ℚ × ℚ)
  | [] => []
  | g :: gs =>
      if g.enabled = false then irradiations start_time gs
      else g.periods.map (fun p => (p.start - start_time, p.stop - start_time)) ++
        irradiations start_time gs

/-- Embeds line 259: `sum(irr[1] - irr[0] for irr in irradiations)`. -/
def total_irradiation_time (irr : List (ℚ × ℚ)) : ℚ :=
  (irr.map (fun p => p.2 - p.1)).sum

/-- C9: the total irradiation time is the sum, over the periods of enabled
generators only, of stop minus start (relative offsets, so the choice of
start time cancels); with the two enabled periods 0-3600 s and 7200-9000 s
it equals 5400 s. -/
theorem C9_total_irradiation_time :
    (∀ (t : ℚ) (gens : List Generator),
        total_irradiation_time (irradiations t gens) =
          (gens.map (fun g =>
            if g.enabled then (g.periods.map (fun p => p.stop - p.start)).sum else 0)).sum) ∧
      total_irradiation_time
          (irradiations 0
            [Generator.mk true [IrradiationPeriod.mk 0 3600, IrradiationPeriod.mk 7200 9000]]) =
        5400 := by
  constructor
  · intro t gens
    induction gens with
    | nil => rfl
    | cons g gs ih =>
        unfold irradiations
        by_cases hg : g.enabled = false
        · rw [if_pos hg]
          simp [List.map_cons, hg, ih]
        · rw [if_neg hg]
          rw [Bool.not_eq_false] at hg
          unfold total_irradiation_time at ih ⊢
          rw [List.map_append, List.sum_append, ih, List.map_cons, List.sum_cons, if_pos hg,
            List.map_map]
          have hfun : ((fun p : ℚ × ℚ => p.2 - p.1) ∘
              fun p : IrradiationPeriod => (p.start - t, p.stop - t)) =
              fun p : IrradiationPeriod => p.stop - p.start := by
            funext p
            simp only [Function.comp]
            ring
          rw [hfun]
  · norm_num [irradiations, total_irradiation_time]

/-- Modelled from the spec: the chemical forms of tritium release. -/
inductive Form
  | total
  | soluble
  | insoluble
deriving DecidableEq

/-- Modelled from the spec: a CompositeSample's activity contribution for a
chemical form is the sum of its constituent vials' activities filtered by
the form; the spec leaves the per-form vial selection abstract (the
contribution is summed over constituent Samples, filtered/weighted by
chemical form), so the selection is a parameter. -/
def form_activity (sel : Form → LSCSample → Bool) (form : Form) (cs : LIBRASample) : ℚ :=
  ((cs.samples.filter (sel form)).map (fun v => v.activity)).sum

/-- Ordering of composite samples by their timestamp. -/
def timeLE (a b : LIBRASample) : Prop := a.time ≤ b.time

instance : DecidableRel timeLE := fun a b => inferInstanceAs (Decidable (a.time ≤ b.time))

instance : IsTotal LIBRASample timeLE := ⟨fun a b => le_total a.time b.time⟩

instance : IsTrans LIBRASample timeLE := ⟨fun _ _ _ hab hbc => le_trans hab hbc⟩

/-- Modelled from the spec: the composite samples reordered by ascending
timestamp (input order not assumed sorted); a stable sort, as Python's
`sorted` is. -/
def GasStream.sorted_samples (gs : GasStream) : List LIBRASample :=
  List.insertionSort timeLE gs.samples

/-- Modelled from the spec: the ascending sequence of relative sampling
times, each CompositeSample timestamp minus the start time. -/
def GasStream.relative_times (gs : GasStream) : List ℚ :=
  (GasStream.sorted_samples gs).map (fun cs => cs.time - gs.start_time)

/-- Running totals of a list (the cumulative-sum shape of `np.cumsum`). -/
def running_totals : ℚ → List ℚ → List ℚ
  | _, [] => []
  | acc, x :: xs => (acc + x) :: running_totals (acc + x) xs

/-- Modelled from the spec: the cumulative activity for a form, a running
sum of the per-composite-sample contributions taken in the same
ascending-time order that produces the relative-times sequence. -/
def GasStream.cumulative_activity (sel : Form → LSCSample → Bool) (form : Form)
    (gs : GasStream) : List ℚ :=
  running_totals 0 ((GasStream.sorted_samples gs).map (form_activity sel form))

/-- Helper: running totals preserve list length. -/
theorem running_totals_length (l : List ℚ) : ∀ a : ℚ,
    (running_totals a l).length = l.length := by
  induction l with
  | nil => intro a; rfl
  | cons x xs ih => intro a; simp [running_totals, ih]

/-- Helper: running totals over non-negative entries are non-decreasing. -/
theorem running_totals_chain (l : List ℚ) : ∀ a : ℚ, (∀ x ∈ l, 0 ≤ x) →
    List.Chain' (· ≤ ·) (running_totals a l) := by
  induction l with
  | nil => intro a _; simp [running_totals]
  | cons x xs ih =>
      intro a h
      rw [running_totals, List.chain'_cons']
      constructor
      · intro y hy
        cases xs with
        | nil => simp [running_totals] at hy
        | cons z zs =>
            rw [running_totals] at hy
            simp only [List.head?_cons, Option.mem_def, Option.some.injEq] at hy
            have hz : 0 ≤ z := h z (by simp)
            rw [← hy]
            linarith
      · exact ih (a + x) fun t ht => h t (List.mem_cons_of_mem x ht)

/-- Helper: the i-th running total is the accumulator plus the sum of the
first i+1 entries. -/
theorem running_totals_get (l : List ℚ) : ∀ (a : ℚ) (i : ℕ)
    (hi : i < (running_totals a l).length),
    (running_totals a l).get ⟨i, hi⟩ = a + (l.take (i + 1)).sum := by
  induction l with
  | nil => intro a i hi; simp [running_totals] at hi
  | cons x xs ih =>
      intro a i hi
      cases i with
      | zero => simp [running_totals]
      | succ j =>
          have hj : j < (running_totals (a + x) xs).length := by
            have := hi
            simp only [running_totals, List.length_cons] at this
            exact Nat.lt_of_succ_lt_succ this
          have hstep : (running_totals a (x :: xs)).get ⟨j + 1, hi⟩ =
              (running_totals (a + x) xs).get ⟨j, hj⟩ := rfl
          rw [hstep, ih (a + x) j hj, List.take_succ_cons, List.sum_cons]
          ring

/-- Helper: the relative-times sequence is sorted ascending. -/
theorem sorted_relative_times (gs : GasStream) :
    List.Sorted (· ≤ ·) (GasStream.relative_times gs) := by
  have hsorted : List.Sorted timeLE (GasStream.sorted_samples gs) :=
    List.sorted_insertionSort timeLE gs.samples
  exact List.Pairwise.map _ (fun a b hab => sub_le_sub_right hab gs.start_time) hsorted

/-- C3: for every gas stream, form selection and form, the cumulative
activity of non-negative vial activities is non-decreasing, has the same
length as the relative-times sequence, is index-aligned with it (the i-th
cumulative value is the total over the first i+1 samples in the very
ascending-time order whose i-th time is the i-th relative time), the
relative times are sorted ascending, and they do not depend on the input
order of the composite samples. -/
theorem C3_stream_invariants (gs : GasStream) (sel : Form → LSCSample → Bool) (form : Form)
    (hpos : ∀ cs ∈ gs.samples, ∀ v ∈ cs.samples, 0 ≤ v.activity) :
    List.Chain' (· ≤ ·) (GasStream.cumulative_activity sel form gs) ∧
      (GasStream.cumulative_activity sel form gs).length =
        (GasStream.relative_times gs).length ∧
      (∀ (i : ℕ) (h1 : i < (GasStream.cumulative_activity sel form gs).length),
        (GasStream.cumulative_activity sel form gs).get ⟨i, h1⟩ =
          (((GasStream.sorted_samples gs).take (i + 1)).map (form_activity sel form)).sum) ∧
      (∀ (i : ℕ) (h1 : i < (GasStream.relative_times gs).length)
        (h2 : i < (GasStream.sorted_samples gs).length),
        (GasStream.relative_times gs).get ⟨i, h1⟩ =
          ((GasStream.sorted_samples gs).get ⟨i, h2⟩).time - gs.start_time) ∧
      List.Sorted (· ≤ ·) (GasStream.relative_times gs) ∧
      ∀ gs2 : GasStream, gs2.start_time = gs.start_time → gs2.samples.Perm gs.samples →
        GasStream.relative_times gs2 = GasStream.relative_times gs := by
  have hmem : ∀ cs ∈ GasStream.sorted_samples gs, ∀ v ∈ cs.samples, 0 ≤ v.activity := by
    intro cs hcs
    exact hpos cs ((List.perm_insertionSort timeLE gs.samples).mem_iff.mp hcs)
  refine ⟨?_, ?_, ?_, ?_, sorted_relative_times gs, ?_⟩
  · apply running_totals_chain
    intro x hx
    rw [List.mem_map] at hx
    obtain ⟨cs, hcs, rfl⟩ := hx
    apply List.sum_nonneg
    intro y hy
    rw [List.mem_map] at hy
    obtain ⟨v, hv, rfl⟩ := hy
    exact hmem cs hcs v (List.mem_filter.mp hv).1
  · unfold GasStream.cumulative_activity GasStream.relative_times
    rw [running_totals_length]
    simp
  · intro i h1
    unfold GasStream.cumulative_activity at h1 ⊢
    rw [running_totals_get _ _ _ h1, zero_add, ← List.map_take]
  · intro i h1 h2
    unfold GasStream.relative_times at h1 ⊢
    simp [List.get_eq_getElem, List.getElem_map]
  · intro gs2 hstart hperm
    have hs2 := sorted_relative_times gs2
    have hs1 := sorted_relative_times gs
    apply List.eq_of_perm_of_sorted ?_ hs2 hs1
    unfold GasStream.relative_times GasStream.sorted_samples
    rw [hstart]
    exact ((List.perm_insertionSort timeLE gs2.samples).trans
      (hperm.trans (List.perm_insertionSort timeLE gs.samples).symm)).map _

/-- A concrete gas stream whose two composite samples arrive in
non-chronological order (times 50 s then 10 s, start time 5 s). -/
def gs_demo : GasStream :=
  { samples := [LIBRASample.mk [LSCSample.mk "a" 2 true] 50,
                LIBRASample.mk [LSCSample.mk "b" 3 true] 10],
    start_time := 5 }

/-- The form selection that counts every vial. -/
def sel_all : Form → LSCSample → Bool := fun _ _ => true

/-- Witness for C3 on the concrete out-of-order stream: the non-negativity
hypothesis holds, the cumulative sequence is non-decreasing, and the
evaluated sequences show the ascending reorder: relative times 5 s, 45 s
and cumulative activity 3 Bq, 5 Bq. -/
theorem C3_stream_invariants_witness :
    (∀ cs ∈ gs_demo.samples, ∀ v ∈ cs.samples, 0 ≤ v.activity) ∧
      List.Chain' (· ≤ ·) (GasStream.cumulative_activity sel_all Form.total gs_demo) ∧
      GasStream.relative_times gs_demo = [5, 45] ∧
      GasStream.cumulative_activity sel_all Form.total gs_demo = [3, 5] :=
  ⟨by decide,
    (C3_stream_invariants gs_demo sel_all Form.total (by decide)).1,
    by
      norm_num [GasStream.relative_times, GasStream.sorted_samples, gs_demo,
        List.insertionSort, List.orderedInsert, timeLE],
    by
      norm_num [GasStream.cumulative_activity, GasStream.sorted_samples, gs_demo, sel_all,
        List.insertionSort, List.orderedInsert, timeLE, running_totals, form_activity]⟩

/-- The line through two points evaluated at x: the formula of one linear
segment, also used for extrapolation beyond the fitted range. -/
def line_through (p q : ℚ × ℚ) (x : ℚ) : ℚ :=
  p.2 + (x - p.1) * (q.2 - p.2) / (q.1 - p.1)

/-- Modelled from the spec: `scipy.interpolate.interp1d` with linear kind,
`bounds_error=False` and `fill_value="extrapolate"`: piecewise-linear
interpolation through the fitted points, extending the first and last
segments linearly outside the fitted range instead of rejecting the
input. -/
def interp_eval : List (ℚ × ℚ) → ℚ → ℚ
  | [], _ => 0
  | [p], _ => p.2
  | [p, q], x => line_through p q x
  | p :: q :: r :: rest, x =>
      if x ≤ q.1 then line_through p q x else interp_eval (q :: r :: rest) x

/-- Embeds the collection loop of `build_background_curve_from_file`
(tritium_model.py lines 104-110): for each blank label, read the row's
tSIE and the sample's activity, in order. -/
def collect_points (reader : LSCFileReader) : List String → Except String (List (ℚ × ℚ))
  | [] => Except.ok []
  | l :: ls =>
      match get_row_by_label reader l with
      | Except.error e => Except.error e
      | Except.ok row =>
          match LSCSample.from_file reader l with
          | Except.error e => Except.error e
          | Except.ok s =>
              match collect_points reader ls with
              | Except.error e => Except.error e
              | Except.ok pts => Except.ok ((row.tSIE, s.activity) :: pts)

/-- Embeds `build_background_curve_from_file` (lines 100-113): collect the
blank points and return the interpolator over them. -/
def build_background_curve_from_file (reader : LSCFileReader) (blank_labels : List String) :
    Except String (ℚ → ℚ) :=
  match collect_points reader blank_labels with
  | Except.error e => Except.error e
  | Except.ok pts => Except.ok (interp_eval pts)

/-- Helper: the segment line reproduces its left endpoint. -/
theorem line_through_left (p q : ℚ × ℚ) : line_through p q p.1 = p.2 := by
  unfold line_through
  simp

/-- Helper: the segment line reproduces its right endpoint when the two
abscissas differ. -/
theorem line_through_right (p q : ℚ × ℚ) (h : p.1 ≠ q.1) :
    line_through p q q.1 = q.2 := by
  unfold line_through
  have h2 : q.1 - p.1 ≠ 0 := sub_ne_zero.mpr (Ne.symm h)
  field_simp

/-- Helper: at or below the second fitted abscissa the interpolator is the
first segment's line. -/
theorem interp_eval_below (p q : ℚ × ℚ) (rest : List (ℚ × ℚ)) (x : ℚ) (h : x ≤ q.1) :
    interp_eval (p :: q :: rest) x = line_through p q x := by
  cases rest with
  | nil => rfl
  | cons r tl =>
      unfold interp_eval
      rw [if_pos h]

/-- Helper: the interpolator reproduces every fitted point when the fitted
abscissas are strictly increasing. -/
theorem interp_eval_node : ∀ (pts : List (ℚ × ℚ)),
    List.Pairwise (fun p q : ℚ × ℚ => p.1 < q.1) pts →
    ∀ (i : ℕ) (hi : i < pts.length),
      interp_eval pts ((pts.get ⟨i, hi⟩).1) = (pts.get ⟨i, hi⟩).2
  | [], _, i, hi => by simp at hi
  | [p], _, 0, _ => rfl
  | [p], _, j + 1, hi => by simp at hi
  | [p, q], hinc, 0, _ => line_through_left p q
  | [p, q], hinc, 1, _ => by
      have hpq : p.1 < q.1 := List.rel_of_pairwise_cons hinc (by simp)
      exact line_through_right p q (ne_of_lt hpq)
  | [p, q], _, j + 2, hi => by simp at hi
  | p :: q :: r :: rest, hinc, 0, _ => by
      have hpq : p.1 < q.1 := List.rel_of_pairwise_cons hinc (by simp)
      show interp_eval (p :: q :: r :: rest) p.1 = p.2
      rw [interp_eval_below p q (r :: rest) p.1 (le_of_lt hpq)]
      exact line_through_left p q
  | p :: q :: r :: rest, hinc, 1, _ => by
      have hpq : p.1 < q.1 := List.rel_of_pairwise_cons hinc (by simp)
      show interp_eval (p :: q :: r :: rest) q.1 = q.2
      rw [interp_eval_below p q (r :: rest) q.1 le_rfl]
      exact line_through_right p q (ne_of_lt hpq)
  | p :: q :: r :: rest, hinc, k + 2, hi => by
      have hi2 : k + 1 < (q :: r :: rest).length := by
        simpa using Nat.lt_of_succ_lt_succ hi
      have htail : List.Pairwise (fun p q : ℚ × ℚ => p.1 < q.1) (q :: r :: rest) :=
        hinc.of_cons
      have hq_lt : q.1 < (((q :: r :: rest).get ⟨k + 1, hi2⟩)).1 := by
        have h := List.pairwise_iff_get.mp htail ⟨0, by simp⟩ ⟨k + 1, hi2⟩
          (by simp [Fin.lt_def])
        simpa using h
      show interp_eval (p :: q :: r :: rest) (((q :: r :: rest).get ⟨k + 1, hi2⟩).1) =
        ((q :: r :: rest).get ⟨k + 1, hi2⟩).2
      unfold interp_eval
      rw [if_neg (not_le.mpr hq_lt)]
      exact interp_eval_node (q :: r :: rest) htail (k + 1) hi2

/-- Helper: above the fitted range the interpolator extends the last
segment's line. -/
theorem interp_eval_above : ∀ (pts : List (ℚ × ℚ)),
    List.Pairwise (fun p q : ℚ × ℚ => p.1 < q.1) pts →
    ∀ (hne : pts ≠ []) (x : ℚ), (pts.getLast hne).1 < x → 2 ≤ pts.length →
      ∃ p q pre, pts = pre ++ [p, q] ∧ interp_eval pts x = line_through p q x
  | [], _, hne, _, _, _ => absurd rfl hne
  | [p], _, _, _, _, h2 => by simp at h2
  | [p, q], _, _, x, _, _ => ⟨p, q, [], rfl, rfl⟩
  | p :: q :: r :: rest, hinc, _, x, hx, _ => by
      have htail : List.Pairwise (fun p q : ℚ × ℚ => p.1 < q.1) (q :: r :: rest) :=
        hinc.of_cons
      have hne2 : (q :: r :: rest) ≠ [] := by simp
      have hx2 : ((q :: r :: rest).getLast hne2).1 < x := hx
      have hmem : (q :: r :: rest).getLast hne2 ∈ r :: rest := by
        have hstep : (q :: r :: rest).getLast hne2 = (r :: rest).getLast (by simp) := rfl
        rw [hstep]
        exact List.getLast_mem _
      have hq_lt : q.1 < x := lt_trans (List.rel_of_pairwise_cons htail hmem) hx2
      obtain ⟨p2, q2, pre, heq, hval⟩ :=
        interp_eval_above (q :: r :: rest) htail hne2 x hx2 (by simp)
      refine ⟨p2, q2, p :: pre, by rw [List.cons_append, ← heq], ?_⟩
      unfold interp_eval
      rw [if_neg (not_le.mpr hq_lt)]
      exact hval

/-- C8: the curve built from the blank vials is the linear interpolator
through the collected points; that interpolator reproduces every fitted
point exactly, and outside the fitted range it returns the value of the
boundary segment's line (linear extrapolation) rather than rejecting the
input. -/
theorem C8_curve_extrapolation (reader : LSCFileReader) (blank_labels : List String)
    (pts : List (ℚ × ℚ)) (hcol : collect_points reader blank_labels = Except.ok pts)
    (hinc : List.Pairwise (fun p q : ℚ × ℚ => p.1 < q.1) pts)
    (h2 : 2 ≤ pts.length) (hne : pts ≠ []) :
    build_background_curve_from_file reader blank_labels = Except.ok (interp_eval pts) ∧
      (∀ (i : ℕ) (hi : i < pts.length),
        interp_eval pts ((pts.get ⟨i, hi⟩).1) = (pts.get ⟨i, hi⟩).2) ∧
      (∀ x : ℚ, x < (pts.get ⟨0, by omega⟩).1 →
        interp_eval pts x = line_through (pts.get ⟨0, by omega⟩) (pts.get ⟨1, by omega⟩) x) ∧
      ∀ x : ℚ, (pts.getLast hne).1 < x →
        ∃ p q pre, pts = pre ++ [p, q] ∧ interp_eval pts x = line_through p q x := by
  refine ⟨?_, interp_eval_node pts hinc, ?_,
    fun x hx => interp_eval_above pts hinc hne x hx h2⟩
  · unfold build_background_curve_from_file
    rw [hcol]
  · intro x hx
    rcases pts with _ | ⟨p, _ | ⟨q, rest⟩⟩
    · simp at h2
    · simp at h2
    · have hpq : p.1 < q.1 := List.rel_of_pairwise_cons hinc (by simp)
      have hxp : x < p.1 := hx
      exact interp_eval_below p q rest x (le_of_lt (lt_trans hxp hpq))

/-- A concrete calibration file with two blank vials: tSIE 100 with 5 Bq
and tSIE 200 with 9 Bq. -/
def reader_blanks : LSCFileReader :=
  { filename := "blanks.csv", labels_column := some "SMPL_ID",
    data := some [Row.mk "B1" 100 5, Row.mk "B2" 200 9], quench_set := some "QB" }

/-- Witness for C8 on the concrete blank set: the curve is built, it
reproduces the fitted point at tSIE 100, and at tSIE 300 (outside the
fitted range) it returns the linear extension value 13. -/
theorem C8_curve_extrapolation_witness :
    collect_points reader_blanks ["B1", "B2"] = Except.ok [(100, 5), (200, 9)] ∧
      build_background_curve_from_file reader_blanks ["B1", "B2"] =
        Except.ok (interp_eval [(100, 5), (200, 9)]) ∧
      interp_eval [(100, 5), (200, 9)] 100 = 5 ∧
      interp_eval [(100, 5), (200, 9)] 300 = 13 :=
  ⟨rfl,
    (C8_curve_extrapolation reader_blanks ["B1", "B2"] [(100, 5), (200, 9)] rfl
        (by norm_num) (by norm_num) (by simp)).1,
    by norm_num [interp_eval, line_through],
    by norm_num [interp_eval, line_through]⟩

/-- Modelled from the spec: `quantity_to_activity` of the external library
converts a particle quantity to the corresponding activity; the conversion
factor (the tritium decay constant) is kept as the parameter `lam`. -/
def quantity_to_activity (lam q : ℚ) : ℚ := lam * q

/-- Embeds line 261: tritium consumed, the neutron rate times the total
irradiation time (a particle count). -/
def T_consumed (neutron_rate total_time : ℚ) : ℚ := neutron_rate * total_time

/-- Embeds line 265: the number of IV samples included in the measured TBR.
The source sets it to `len(IV_stream.samples)`, the total number of
composite samples of the primary stream. -/
def nb_samples_included_iv (iv_samples : List LIBRASample) : ℕ := iv_samples.length

/-- Embeds line 266: the primary stream's cumulative total activity at
index `nb_samples_included_iv - 1`. -/
def T_produced_IV (cumulative : List ℚ) (nb_included : ℕ) : ℚ :=
  cumulative.getD (nb_included - 1) 0

/-- Embeds lines 268-270: the measured TBR, the cumulative activity at the
cutoff divided by the activity equivalent of the consumed neutrons. -/
def measured_TBR (lam : ℚ) (cumulative : List ℚ) (iv_samples : List LIBRASample)
    (neutron_rate total_time : ℚ) : ℚ :=
  T_produced_IV cumulative (nb_samples_included_iv iv_samples) /
    quantity_to_activity lam (T_consumed neutron_rate total_time)

/-- Counterexample for C1: with a concrete two-sample primary stream the
code sets the included count to the full stream length, so the trailing
sample is not excluded: the index used is the last one and the measured
TBR consumes the final cumulative value (10), which contains the trailing
sample's contribution. -/
theorem C1_counterexample :
    nb_samples_included_iv [LIBRASample.mk [] 0, LIBRASample.mk [] 1] = 2 ∧
      ¬ nb_samples_included_iv [LIBRASample.mk [] 0, LIBRASample.mk [] 1] <
        [LIBRASample.mk [] 0, LIBRASample.mk [] 1].length ∧
      T_produced_IV [3, 10]
        (nb_samples_included_iv [LIBRASample.mk [] 0, LIBRASample.mk [] 1]) = 10 ∧
      measured_TBR 1 [3, 10] [LIBRASample.mk [] 0, LIBRASample.mk [] 1] 1 2 = 5 :=
  ⟨rfl, by decide, rfl, by
    norm_num [measured_TBR, T_produced_IV, nb_samples_included_iv, quantity_to_activity,
      T_consumed]⟩

/-- C1 amended: the measured TBR is the cumulative total activity at index
`nb_samples_included_iv - 1` (the last index, since the included count is
the full stream length) divided by the activity equivalent of
neutron rate times total irradiation time, i.e. the particle-count
equivalent of the final cumulative activity per consumed neutron. -/
theorem C1_measured_TBR_amended (lam rate time : ℚ) (cum : List ℚ)
    (samples : List LIBRASample) (hne : cum ≠ [])
    (hlen : cum.length = samples.length) :
    measured_TBR lam cum samples rate time =
      (cum.getLast hne / lam) / (rate * time) := by
  unfold measured_TBR T_produced_IV nb_samples_included_iv quantity_to_activity T_consumed
  have hlt : cum.length - 1 < cum.length := by
    have hpos : 0 < cum.length := List.length_pos.mpr hne
    omega
  rw [← hlen, List.getD_eq_getElem cum 0 hlt, ← List.getLast_eq_getElem cum hne, div_div]

/-- Witness for C1 amended, at the spec's end-to-end numbers: neutron rate
1.3e9, irradiation time 5400 s (so 7.02e12 neutrons consumed) and a final
cumulative activity whose particle-count equivalent is 7.0e3 (here decay
constant 2 and activity 1.4e4): the measured TBR is 7.0e3 / 7.02e12. -/
theorem C1_measured_TBR_amended_witness :
    ([14000] : List ℚ) ≠ [] ∧
      ([14000] : List ℚ).length = [LIBRASample.mk [] 0].length ∧
      measured_TBR 2 [14000] [LIBRASample.mk [] 0] 1300000000 5400 =
        7000 / 7020000000000 :=
  ⟨by simp, by simp, by
    have h := C1_measured_TBR_amended 2 1300000000 5400 [14000] [LIBRASample.mk [] 0]
      (by simp) (by simp)
    rw [h]
    norm_num⟩

end TritiumModel
